import Mathlib

/-!
# Verification of the Lichess bot session/game orchestration logic

Shallow embedding of `lichess_bot.py` (class `LichessBot`): the time
allocator `get_time_limit`, the challenge gatekeeper (the `challenge`
branch of `run` together with `accept_challenge`), the turn check
`is_our_turn`, the online-bot listing `get_online_bots`, the outbound
retry loop `challenge_random_bot`, and the main event loop of `run` as a
step function on session state.

Machine conventions: Python floats are modelled as exact rationals (all
constants in the source are short decimal literals); Python `None` for
the username is modelled as the empty string (both are falsy at the only
use site); dict-shaped game state is modelled as a typed structure with
the fields the code reads.
-/

namespace WildOrderBot

/-- Clock-relevant fields of the `game_state` dict read by
`get_time_limit`: `wtime` and `btime` in milliseconds, and the
move-history string modelled as its list of whitespace-separated
tokens (the code only takes `len(moves_str.split())`). -/
structure GameClock where
  wtime : ℚ
  btime : ℚ
  moves : List String
  deriving DecidableEq

/-- `LichessBot.get_time_limit` (lichess_bot.py lines 283-329), happy
path of the `try` block.  Returns `(time_limit, depth)`.  The manual
settings `manual_time_limit` / `manual_depth` are passed explicitly
since the Python reads them from `self`. -/
def get_time_limit (manual_mode : Bool) (manual_time_limit : ℚ)
    (manual_depth : Nat) (gs : GameClock) (bot_is_white : Bool)
    (initial increment : ℚ) : ℚ × Nat :=
  if manual_mode then (manual_time_limit, manual_depth)
  else
    let wtime := gs.wtime / 1000
    let btime := gs.btime / 1000
    let time_left := if bot_is_white then wtime else btime
    let moves_played := gs.moves.length
    let band : ℚ × Nat :=
      if initial ≤ 60 ∧ increment = 0 then (min 0.84 (time_left * 0.01), 30)
      else if initial ≤ 60 then (min 0.86 (time_left * 0.01), 30)
      else if initial + increment * 40 ≤ 180 then (min 0.9 (time_left * 0.015), 45)
      else if initial + increment * 40 ≤ 480 then (min 2.0 (time_left * 0.03), 35)
      else if initial + increment * 40 ≤ 900 then (min 5.0 (time_left * 0.04), 35)
      else (min 15.0 (time_left * 0.05), 35)
    let time_limit :=
      if moves_played < 12 ∧ initial ≤ 60 then max (band.1 * 0.85) 0.82 else band.1
    (max 0.82 time_limit, band.2)

/-- C2 (counterexample): for `initial=600, increment=5, remaining=600s,
plyCount=20` and manual mode off, `get_time_limit` does NOT return a
budget of 15.0 seconds: since `600 + 5·40 = 800 ≤ 900`, the `≤ 900`
band applies, not the top band. -/
theorem c2_counterexample :
    get_time_limit false 0.1 20 ⟨600000, 600000, List.replicate 20 "m"⟩ true 600 5
      ≠ (15, 35) := by
  simp only [get_time_limit, Prod.ext_iff]
  norm_num

/-- C2 (amended): for `initial=600, increment=5, remaining=600s,
plyCount=20` and manual mode off, the returned budget is
`min(5.0, 600×0.04) = 5.0` seconds and the depth is 35 (the
`initial + 40·increment ≤ 900` band), for either colour and any
configured manual settings. -/
theorem c2_amended_band (mtl : ℚ) (md : Nat) (w : Bool) :
    get_time_limit false mtl md ⟨600000, 600000, List.replicate 20 "m"⟩ w 600 5
      = (5, 35) := by
  cases w <;> (simp only [get_time_limit]; norm_num)

/-- C5: in every non-manual invocation the returned budget is at least
0.82 seconds (the hard floor `max(0.82, ·)` on line 323), and for
`initial=60, increment=0, remaining=60s, plyCount=0` the result is
exactly `(0.82, 30)`, hence within `[0.82, 0.84]` with depth 30. -/
theorem allocator_hard_floor :
    (∀ (mtl : ℚ) (md : Nat) (gs : GameClock) (w : Bool) (ini inc : ℚ),
        0.82 ≤ (get_time_limit false mtl md gs w ini inc).1) ∧
    get_time_limit false 0.1 20 ⟨60000, 60000, []⟩ true 60 0 = (0.82, 30) := by
  constructor
  · intro mtl md gs w ini inc
    exact le_max_left _ _
  · simp only [get_time_limit]
    norm_num

/-- C9: with manual mode active, `get_time_limit` returns exactly the
configured `(manual_time_limit, manual_depth)` pair, so any two manual
invocations agree no matter what their clock fields, move histories,
colours, initial times and increments are. -/
theorem manual_mode_noninterference (mtl : ℚ) (md : Nat)
    (gs1 gs2 : GameClock) (w1 w2 : Bool) (i1 i2 n1 n2 : ℚ) :
    get_time_limit true mtl md gs1 w1 i1 n1 = (mtl, md) ∧
    get_time_limit true mtl md gs1 w1 i1 n1
      = get_time_limit true mtl md gs2 w2 i2 n2 := by
  exact ⟨rfl, rfl⟩

/-- Python `str.lower()` as used for username normalization (ASCII case
folding suffices for the model). -/
def pyLower (s : String) : String := ⟨s.data.map Char.toLower⟩

/-- `LichessBot.is_blocked` (lines 171-173): membership of the
lower-cased username in the blocklist.  The blocklist (a Python set of
already lower-cased names) is modelled as a list. -/
def is_blocked (blocklist : List String) (username : String) : Bool :=
  blocklist.contains (pyLower username)

/-- `LichessBot.supported_variants` (lines 249-260): the variant keys
supported by the currently selected engine. -/
def supported_variants (use_fairy_stockfish : Bool) : List String :=
  if use_fairy_stockfish then
    ["standard", "crazyhouse", "chess960", "kingOfTheHill",
     "threeCheck", "antichess", "atomic", "horde", "racingKings"]
  else
    ["standard", "chess960"]

/-- Session-state fields read and written by the main event loop of
`LichessBot.run` and by the challenge handlers. -/
structure BotState where
  winding_down : Bool
  final_game_played : Bool
  current_game_id : Option String
  challenge_accepted : Bool
  should_stop : Bool
  blocklist : List String
  arena_mode : Bool
  use_fairy_stockfish : Bool
  deriving DecidableEq

/-- Outcome of processing one incoming challenge. -/
inductive ChalAction where
  | accept
  | decline (reason : String)
  deriving DecidableEq

/-- `LichessBot.accept_challenge` (lines 568-595), with the remote
`accept_challenge` API call modelled as succeeding: its own guards
(arena mode, current game, acceptance latch) re-checked, then the
acceptance latch is set. -/
def accept_challenge (st : BotState) : ChalAction × BotState :=
  if st.arena_mode then (ChalAction.decline "later", st)
  else if st.current_game_id.isSome then (ChalAction.decline "later", st)
  else if st.challenge_accepted then (ChalAction.decline "later", st)
  else (ChalAction.accept, { st with challenge_accepted := true })

/-- The `challenge` branch of `LichessBot.run` (lines 746-767): the
inbound Challenge Gatekeeper decision for a challenge from
`challenger` with variant key `variant`, composed with
`accept_challenge` on the accepting path. -/
def handle_challenge (st : BotState) (challenger variant : String) :
    ChalAction × BotState :=
  if st.winding_down then (ChalAction.decline "later", st)
  else if st.current_game_id.isSome then (ChalAction.decline "later", st)
  else if st.challenge_accepted then (ChalAction.decline "later", st)
  else if is_blocked st.blocklist challenger then (ChalAction.decline "generic", st)
  else if (supported_variants st.use_fairy_stockfish).contains variant then
    if variant ≠ "standard" ∧ st.use_fairy_stockfish = false then
      (ChalAction.decline "variant", st)
    else accept_challenge st
  else (ChalAction.decline "variant", st)

/-- C1: with the default engine active (`use_fairy_stockfish = false`)
and no earlier decline condition holding, an incoming `chess960`
challenge is DECLINED with reason `variant` (lines 760-762), even
though `chess960` is in the default engine's own
`supported_variants` set (line 260) — the code contradicts its own
supported-variant declaration, so the spec's "accept" is never
reached. -/
theorem chess960_declined_despite_supported :
    (supported_variants false).contains "chess960" = true ∧
    handle_challenge
        ⟨false, false, none, false, false, [], false, false⟩ "friend" "chess960"
      = (ChalAction.decline "variant",
         ⟨false, false, none, false, false, [], false, false⟩) := by
  constructor
  · decide
  · decide

/-- C6: a challenge from a blocked challenger, received while not
winding down, with no current game and a clear acceptance latch, is
declined with reason `generic` and the session state is returned
unchanged — in particular the acceptance latch stays clear and the
current-game identifier stays `none`. -/
theorem blocked_challenger_generic_frame (st : BotState) (challenger variant : String)
    (hwd : st.winding_down = false) (hid : st.current_game_id = none)
    (hlatch : st.challenge_accepted = false)
    (hblocked : is_blocked st.blocklist challenger = true) :
    handle_challenge st challenger variant = (ChalAction.decline "generic", st) := by
  simp [handle_challenge, hwd, hid, hlatch, hblocked]

/-- Witness for C6 at a concrete state: blocklist `["badguy"]`,
challenger `"BadGuy"` (matched case-insensitively). -/
theorem blocked_challenger_generic_frame_witness :
    handle_challenge
        ⟨false, false, none, false, false, ["badguy"], false, false⟩ "BadGuy" "standard"
      = (ChalAction.decline "generic",
         ⟨false, false, none, false, false, ["badguy"], false, false⟩) :=
  blocked_challenger_generic_frame
    ⟨false, false, none, false, false, ["badguy"], false, false⟩ "BadGuy" "standard"
    rfl rfl rfl (by decide)

/-- Result of `LichessBot.check_schedule` (lines 807-822). -/
inductive Phase where
  | running
  | windingDown
  | shutdown
  deriving DecidableEq

/-- Events of the incoming event stream consumed by `LichessBot.run`. -/
inductive Event where
  | challenge (id challenger variant : String)
  | gameStart (id : String)
  | gameFinish (id : String)
  deriving DecidableEq

/-- Externally visible actions of one main-loop iteration:
`challengeRandom r` is an invocation of `challenge_random_bot(rated=r)`
(outbound challenge origination), `acceptChal` / `declineChal` are the
accept/decline API calls for an incoming challenge, and `exitLoop` is a
`break` out of the main loop. -/
inductive Action where
  | challengeRandom (rated : Bool)
  | acceptChal (id : String)
  | declineChal (id reason : String)
  | exitLoop
  deriving DecidableEq

/-- An action is an outbound challenge origination. -/
def isOriginate : Action → Bool
  | Action.challengeRandom _ => true
  | _ => false

/-- Attach the challenge id to a gatekeeper decision. -/
def chalToAction (id : String) : ChalAction → Action
  | ChalAction.accept => Action.acceptChal id
  | ChalAction.decline r => Action.declineChal id r

/-- Lines 707-715 of `run`: on first observing the `winding_down`
phase, set the edge-triggered latch and, when idle (no current game,
acceptance latch clear) with auto-challenge enabled, originate one
final unrated challenge. -/
def windTransition (auto_challenge_bots : Bool) (st : BotState) (ph : Phase) :
    BotState × List Action :=
  if ph = Phase.windingDown ∧ st.winding_down = false then
    let st' := { st with winding_down := true }
    if st'.current_game_id = none ∧ st'.challenge_accepted = false
        ∧ auto_challenge_bots then
      (st', [Action.challengeRandom false])
    else (st', [])
  else (st, [])

/-- Lines 726-794 of `run`: dispatch of one stream event after the
schedule checks.  A `gameStart` event runs `handle_game` to completion
(lines 458-521), which clears the current-game identifier on both of
its exit paths, so the post-state has `current_game_id = none`. -/
def dispatch (auto_challenge_bots : Bool) (st : BotState) (ev : Event) :
    BotState × List Action :=
  match ev with
  | Event.challenge id challenger variant =>
      let r := handle_challenge st challenger variant
      (r.2, [chalToAction id r.1])
  | Event.gameStart _ =>
      ({ st with challenge_accepted := false, current_game_id := none }, [])
  | Event.gameFinish id =>
      let st1 := if st.current_game_id = some id then
        { st with current_game_id := none } else st
      if st1.winding_down then
        ({ st1 with final_game_played := true }, [Action.exitLoop])
      else if auto_challenge_bots ∧ st1.current_game_id = none
          ∧ st1.winding_down = false then
        if st1.should_stop = false ∧ st1.winding_down = false then
          (st1, [Action.challengeRandom false])
        else (st1, [])
      else (st1, [])

/-- One iteration of the main event loop of `LichessBot.run`
(lines 697-794): schedule check, wind-down transition, stop and
final-game exits, then event dispatch. -/
def step (auto_challenge_bots : Bool) (st : BotState) (ph : Phase) (ev : Event) :
    BotState × List Action :=
  if ph = Phase.shutdown then (st, [Action.exitLoop])
  else
    let t := windTransition auto_challenge_bots st ph
    if t.1.should_stop then (t.1, t.2 ++ [Action.exitLoop])
    else if t.1.winding_down = true ∧ t.1.current_game_id = none
        ∧ t.1.final_game_played = true then
      (t.1, t.2 ++ [Action.exitLoop])
    else
      let d := dispatch auto_challenge_bots t.1 ev
      (d.1, t.2 ++ d.2)

/-- Iterate `step` over a list of (schedule phase, event) pairs,
stopping after an iteration that breaks out of the loop, and collect
all emitted actions. -/
def runSteps (auto_challenge_bots : Bool) :
    BotState → List (Phase × Event) → BotState × List Action
  | st, [] => (st, [])
  | st, pe :: rest =>
      let r := step auto_challenge_bots st pe.1 pe.2
      if Action.exitLoop ∈ r.2 then r
      else
        let r2 := runSteps auto_challenge_bots r.1 rest
        (r2.1, r.2 ++ r2.2)

lemma chalToAction_not_originate (id : String) (a : ChalAction) :
    isOriginate (chalToAction id a) = false := by
  cases a <;> rfl

lemma chalToAction_ne_accept (id i : String) (a : ChalAction)
    (h : a ≠ ChalAction.accept) : chalToAction id a ≠ Action.acceptChal i := by
  cases a with
  | accept => exact absurd rfl h
  | decline r => simp [chalToAction]

lemma handle_challenge_winding (st : BotState) (c v : String) :
    (handle_challenge st c v).2.winding_down = st.winding_down := by
  unfold handle_challenge accept_challenge
  split_ifs <;> rfl

lemma windTransition_of_winding (auto : Bool) (st : BotState) (ph : Phase)
    (h : st.winding_down = true) :
    windTransition auto st ph = (st, []) := by
  unfold windTransition
  simp [h]

lemma dispatch_of_winding (auto : Bool) (st : BotState) (ev : Event)
    (h : st.winding_down = true) :
    (dispatch auto st ev).1.winding_down = true ∧
    (dispatch auto st ev).2.filter isOriginate = [] ∧
    ∀ i, Action.acceptChal i ∉ (dispatch auto st ev).2 := by
  cases ev with
  | challenge id c v =>
      refine ⟨by simpa [dispatch] using (handle_challenge_winding st c v).trans h, ?_, ?_⟩
      · simp [dispatch, List.filter, chalToAction_not_originate]
      · intro i
        have hne : (handle_challenge st c v).1 ≠ ChalAction.accept := by
          unfold handle_challenge
          simp [h]
        simpa [dispatch] using (chalToAction_ne_accept id i _ hne).symm
  | gameStart id =>
      exact ⟨h, rfl, by intro i; simp [dispatch]⟩
  | gameFinish id =>
      have h1 : (if st.current_game_id = some id then
          { st with current_game_id := none } else st).winding_down = true := by
        split <;> exact h
      refine ⟨?_, ?_, ?_⟩
      · simp only [dispatch, h1, if_true]
      · simp only [dispatch, h1, if_true]
        rfl
      · intro i
        simp only [dispatch, h1, if_true]
        simp

lemma step_of_winding (auto : Bool) (st : BotState) (ph : Phase) (ev : Event)
    (h : st.winding_down = true) :
    (step auto st ph ev).1.winding_down = true ∧
    (step auto st ph ev).2.filter isOriginate = [] ∧
    ∀ i, Action.acceptChal i ∉ (step auto st ph ev).2 := by
  unfold step
  rw [windTransition_of_winding auto st ph h]
  by_cases hsd : ph = Phase.shutdown
  · simp [hsd, isOriginate, h]
  · obtain ⟨d1, d2, d3⟩ := dispatch_of_winding auto st ev h
    by_cases hstop : st.should_stop
    · simp [hsd, hstop, h, isOriginate]
    · by_cases hexit : st.winding_down = true ∧ st.current_game_id = none
          ∧ st.final_game_played = true
      · simp [hsd, hstop, hexit, h, isOriginate]
      · refine ⟨?_, ?_, ?_⟩
        · simpa [hsd, hstop, hexit] using d1
        · simpa [hsd, hstop, hexit] using d2
        · intro i
          have := d3 i
          simp only [step, hsd, hstop, hexit]
          simpa [hsd, hstop, hexit] using this

lemma step_eq_of_not_shutdown (auto : Bool) (st : BotState) (ph : Phase)
    (ev : Event) (h : ph ≠ Phase.shutdown) :
    step auto st ph ev =
      (let t := windTransition auto st ph
       if t.1.should_stop then (t.1, t.2 ++ [Action.exitLoop])
       else if t.1.winding_down = true ∧ t.1.current_game_id = none
           ∧ t.1.final_game_played = true then
         (t.1, t.2 ++ [Action.exitLoop])
       else
         let d := dispatch auto t.1 ev
         (d.1, t.2 ++ d.2)) := by
  unfold step
  rw [if_neg h]

lemma step_first_winddown (st : BotState) (ev : Event)
    (hwd : st.winding_down = false) (hid : st.current_game_id = none)
    (hlatch : st.challenge_accepted = false) :
    (step true st Phase.windingDown ev).1.winding_down = true ∧
    (step true st Phase.windingDown ev).2.filter isOriginate
      = [Action.challengeRandom false] := by
  have hw : windTransition true st Phase.windingDown
      = ({ st with winding_down := true }, [Action.challengeRandom false]) := by
    unfold windTransition
    simp [hwd, hid, hlatch]
  rw [step_eq_of_not_shutdown true st Phase.windingDown ev (by decide), hw]
  dsimp only
  by_cases hstop : st.should_stop = true
  · rw [if_pos hstop]
    exact ⟨rfl, by simp [isOriginate]⟩
  · rw [if_neg hstop]
    by_cases hfin : st.final_game_played = true
    · rw [if_pos ⟨rfl, hid, hfin⟩]
      exact ⟨rfl, by simp [isOriginate]⟩
    · rw [if_neg (by simp [hfin])]
      obtain ⟨d1, d2, d3⟩ :=
        dispatch_of_winding true { st with winding_down := true } ev rfl
      refine ⟨d1, ?_⟩
      rw [List.filter_append, d2]
      simp [isOriginate]

lemma runSteps_of_winding (auto : Bool) (st : BotState)
    (trace : List (Phase × Event)) (h : st.winding_down = true) :
    (runSteps auto st trace).2.filter isOriginate = [] := by
  induction trace generalizing st with
  | nil => rfl
  | cons pe rest ih =>
      obtain ⟨s1, s2, s3⟩ := step_of_winding auto st pe.1 pe.2 h
      unfold runSteps
      by_cases hex : Action.exitLoop ∈ (step auto st pe.1 pe.2).2
      · simpa [hex] using s2
      · simp [hex, List.filter_append, s2, ih _ s1]

/-- C3: while the `winding_down` latch is true, an incoming challenge
is declined with reason `later` and the state is unchanged, whatever
the other flags; moreover no main-loop iteration started in such a
state ever emits an accept action for any challenge id. -/
theorem winddown_never_accepts (st : BotState) (challenger variant : String)
    (h : st.winding_down = true) :
    handle_challenge st challenger variant = (ChalAction.decline "later", st) ∧
    ∀ (auto : Bool) (ph : Phase) (ev : Event) (i : String),
      Action.acceptChal i ∉ (step auto st ph ev).2 := by
  constructor
  · unfold handle_challenge
    simp [h]
  · intro auto ph ev i
    exact (step_of_winding auto st ph ev h).2.2 i

/-- Witness for C3 at a concrete winding-down state. -/
theorem winddown_never_accepts_witness :
    handle_challenge ⟨true, false, none, false, false, [], false, true⟩ "x" "standard"
      = (ChalAction.decline "later",
         ⟨true, false, none, false, false, [], false, true⟩) ∧
    Action.acceptChal "c1" ∉
      (step true ⟨true, false, none, false, false, [], false, true⟩
        Phase.running (Event.challenge "c1" "x" "standard")).2 :=
  ⟨(winddown_never_accepts ⟨true, false, none, false, false, [], false, true⟩
      "x" "standard" rfl).1,
   (winddown_never_accepts ⟨true, false, none, false, false, [], false, true⟩
      "x" "standard" rfl).2 true Phase.running
      (Event.challenge "c1" "x" "standard") "c1"⟩

/-- C4: if the first observed transition into the winding-down phase
happens while the session is idle (no current game, acceptance latch
clear) with auto-challenge enabled, then over that iteration and any
continuation of the run, the challenge originations are exactly one
invocation of `challenge_random_bot` with `rated=False`. -/
theorem winddown_exactly_one_final_challenge (st : BotState) (ev : Event)
    (trace : List (Phase × Event))
    (hwd : st.winding_down = false) (hid : st.current_game_id = none)
    (hlatch : st.challenge_accepted = false) :
    (runSteps true st ((Phase.windingDown, ev) :: trace)).2.filter isOriginate
      = [Action.challengeRandom false] := by
  obtain ⟨s1, s2⟩ := step_first_winddown st ev hwd hid hlatch
  unfold runSteps
  by_cases hex : Action.exitLoop ∈ (step true st Phase.windingDown ev).2
  · simpa [hex] using s2
  · simp [hex, List.filter_append, s2, runSteps_of_winding true _ trace s1]

/-- Witness for C4: a concrete idle session entering wind-down on a
`gameFinish` event, followed by a further challenge event. -/
theorem winddown_exactly_one_final_challenge_witness :
    (runSteps true ⟨false, false, none, false, false, [], false, false⟩
        [(Phase.windingDown, Event.gameFinish "g"),
         (Phase.windingDown, Event.challenge "c" "x" "standard")]).2.filter isOriginate
      = [Action.challengeRandom false] :=
  winddown_exactly_one_final_challenge
    ⟨false, false, none, false, false, [], false, false⟩ (Event.gameFinish "g")
    [(Phase.windingDown, Event.challenge "c" "x" "standard")] rfl rfl rfl

/-- Interface of the external rules oracle (the `python-chess` board)
as used by `is_our_turn`: the initial position, `push_uci` — which
raises `ValueError` when a token is not a legal move in the current
position, modelled as `none` — and the side to move. -/
structure RulesOracle (Board : Type) where
  init : Board
  pushUci : Board → String → Option Board
  turnWhite : Board → Bool

/-- Replay a token list from a given position, `none` as soon as the
oracle rejects a token. -/
def replay {Board : Type} (o : RulesOracle Board) :
    Board → List String → Option Board
  | b, [] => some b
  | b, m :: rest =>
      match o.pushUci b m with
      | some b' => replay o b' rest
      | none => none

/-- `LichessBot.is_our_turn` (lines 444-456): reconstruct the board by
replaying the move-history tokens from the initial position, returning
`False` from inside the loop if any token raises `ValueError`;
otherwise compare the side to move against the bot's colour. -/
def is_our_turn {Board : Type} (o : RulesOracle Board)
    (moves : List String) (bot_is_white : Bool) : Bool :=
  match replay o o.init moves with
  | some b => o.turnWhite b == bot_is_white
  | none => false

lemma replay_append_bad {Board : Type} (o : RulesOracle Board)
    (m : String) (post : List String) :
    ∀ (pre : List String) (b0 b : Board), replay o b0 pre = some b →
      o.pushUci b m = none → replay o b0 (pre ++ m :: post) = none := by
  intro pre
  induction pre with
  | nil =>
      intro b0 b hpre hbad
      have hb : b0 = b := by simpa [replay] using hpre
      subst hb
      simp [replay, hbad]
  | cons x xs ih =>
      intro b0 b hpre hbad
      rw [List.cons_append]
      simp only [replay] at hpre ⊢
      cases hx : o.pushUci b0 x with
      | none => rfl
      | some b1 =>
          rw [hx] at hpre
          exact ih b1 b hpre hbad

/-- C7: if some token of the move history is not a legal move in the
position reached by replaying the preceding tokens, `is_our_turn`
returns `False` (it is a total function, so no exception escapes), and
the caller therefore skips the move decision for that event. -/
theorem illegal_history_returns_false {Board : Type} (o : RulesOracle Board)
    (pre : List String) (m : String) (post : List String) (b : Board)
    (hpre : replay o o.init pre = some b) (hbad : o.pushUci b m = none)
    (bot_is_white : Bool) :
    is_our_turn o (pre ++ m :: post) bot_is_white = false := by
  unfold is_our_turn
  rw [replay_append_bad o m post pre o.init b hpre hbad]

/-- Concrete rules-oracle instance for the C7 witness: positions are
ply counters and the token `"xx"` is rejected in every position. -/
def toyOracle : RulesOracle Nat where
  init := 0
  pushUci := fun b m => if m = "xx" then none else some (b + 1)
  turnWhite := fun b => b % 2 == 0

/-- Witness for C7: a history whose second token is illegal. -/
theorem illegal_history_returns_false_witness :
    is_our_turn toyOracle ["e2e4", "xx"] true = false :=
  illegal_history_returns_false toyOracle ["e2e4"] "xx" [] 1
    (by decide) (by decide) true

/-- Loop of `LichessBot.get_online_bots` (lines 608-613): walk the
service's bot list, appending every username that is not the bot's own
(compared after `.lower()`; a falsy `self.username`, modelled as the
empty string, lets nothing through), and break as soon as the
accumulated list has at least `limit` entries.  The length check runs
after the append, so the two outcomes of the append guard are spelled
out as a case split. -/
def online_bots_go (username : String) (limit : Nat)
    (acc : List String) : List String → List String
  | [] => acc
  | b :: rest =>
      if username ≠ "" ∧ pyLower b ≠ pyLower username then
        if limit ≤ (acc ++ [b]).length then acc ++ [b]
        else online_bots_go username limit (acc ++ [b]) rest
      else
        if limit ≤ acc.length then acc
        else online_bots_go username limit acc rest

/-- `LichessBot.get_online_bots` (lines 605-617), happy path of the
`try` block. -/
def get_online_bots (username : String) (bots : List String)
    (limit : Nat) : List String :=
  online_bots_go username limit [] bots

lemma online_bots_go_length (u : String) (limit : Nat) :
    ∀ (bots acc : List String), acc.length < limit →
      (online_bots_go u limit acc bots).length ≤ limit := by
  intro bots
  induction bots with
  | nil =>
      intro acc h
      rw [online_bots_go]
      omega
  | cons b rest ih =>
      intro acc h
      rw [online_bots_go]
      by_cases hb : u ≠ "" ∧ pyLower b ≠ pyLower u
      · rw [if_pos hb]
        by_cases hlim : limit ≤ (acc ++ [b]).length
        · rw [if_pos hlim]
          simp only [List.length_append, List.length_cons, List.length_nil] at *
          omega
        · rw [if_neg hlim]
          exact ih _ (by omega)
      · rw [if_neg hb]
        by_cases hlim : limit ≤ acc.length
        · rw [if_pos hlim]
          omega
        · rw [if_neg hlim]
          exact ih _ (by omega)

lemma online_bots_go_not_self (u : String) (limit : Nat) :
    ∀ (bots acc : List String), (∀ a ∈ acc, pyLower a ≠ pyLower u) →
      ∀ x ∈ online_bots_go u limit acc bots, pyLower x ≠ pyLower u := by
  intro bots
  induction bots with
  | nil =>
      intro acc hacc x hx
      rw [online_bots_go] at hx
      exact hacc x hx
  | cons b rest ih =>
      intro acc hacc x hx
      rw [online_bots_go] at hx
      by_cases hb : u ≠ "" ∧ pyLower b ≠ pyLower u
      · rw [if_pos hb] at hx
        have hacc' : ∀ a ∈ acc ++ [b], pyLower a ≠ pyLower u := by
          intro a ha
          rcases List.mem_append.1 ha with h | h
          · exact hacc a h
          · rw [List.mem_singleton.1 h]
            exact hb.2
        by_cases hlim : limit ≤ (acc ++ [b]).length
        · rw [if_pos hlim] at hx
          exact hacc' x hx
        · rw [if_neg hlim] at hx
          exact ih (acc ++ [b]) hacc' x hx
      · rw [if_neg hb] at hx
        by_cases hlim : limit ≤ acc.length
        · rw [if_pos hlim] at hx
          exact hacc x hx
        · rw [if_neg hlim] at hx
          exact ih acc hacc x hx

lemma get_online_bots_not_self (u : String) (bots : List String) (limit : Nat) :
    ∀ x ∈ get_online_bots u bots limit, pyLower x ≠ pyLower u :=
  online_bots_go_not_self u limit bots [] (by intro a ha; cases ha)

/-- Per-invocation external inputs of one `challenge_random_bot` call,
indexed by the remaining retry budget: the raw online-bot list the
remote service streams back, the index drawn by `random.choice`, and
whether the rated and the casual `challenge_user` attempts succeed. -/
structure CrbCall where
  serviceBots : List String
  choice : Nat
  ratedOk : Bool
  casualOk : Bool

/-- Session fields read by `challenge_random_bot`. -/
structure CrbState where
  current_game_id : Option String
  arena_mode : Bool
  can_challenge_bots : Bool
  blocklist : List String
  username : String

/-- Lines 625-647 of `challenge_random_bot`: the guard clauses
(already in a game, arena mode, bot challenges disabled), the online
listing, the blocklist filtering, and the `random.choice` sampling.
`none` stands for the early `return False` paths;
`random.choice(available_bots)` is modelled as indexing the nonempty
candidate list by the environment's draw modulo its length. -/
def crbPick (st : CrbState) (c : CrbCall) : Option String :=
  if st.current_game_id.isSome then none
  else if st.arena_mode then none
  else if st.can_challenge_bots = false then none
  else
    let online := get_online_bots st.username c.serviceBots 80
    if online = [] then none
    else
      match online.filter (fun b => !(is_blocked st.blocklist b)) with
      | [] => none
      | a :: rest =>
          some ((a :: rest).get
            ⟨c.choice % (a :: rest).length, Nat.mod_lt _ (Nat.succ_pos _)⟩)

/-- `LichessBot.challenge_random_bot` (lines 619-670), with the
environment of successive calls indexed by the remaining retry budget
(the recursion on line 663 passes `max_retries - 1`).  Returns the
boolean result together with the list of bots a challenge was
attempted against (the `challenge_user` targets, one entry per sampled
bot: the rated and, on its failure, casual attempts both aim at the
same bot). -/
def challenge_random_bot (env : Nat → CrbCall) (st : CrbState) :
    Nat → Bool × List String
  | fuel =>
      match crbPick st (env fuel) with
      | none => (false, [])
      | some bot =>
          if (env fuel).ratedOk then (true, [bot])
          else if (env fuel).casualOk then (true, [bot])
          else
            match _hf : fuel with
            | 0 => (false, [bot])
            | n + 1 =>
                let r := challenge_random_bot env st n
                (r.1, bot :: r.2)
termination_by fuel => fuel
decreasing_by omega

/-- C8: `challenge_random_bot` with retry budget `n` (15 at the
default call) attempts at most `n + 1` sampled bots in total, and when
every attempt in the environment fails it returns `False` once the
budget is exhausted instead of recursing again. -/
theorem challenge_random_bot_bounded (env : Nat → CrbCall) (st : CrbState) :
    ∀ n : Nat, (challenge_random_bot env st n).2.length ≤ n + 1 ∧
      ((∀ k, (env k).ratedOk = false ∧ (env k).casualOk = false) →
        (challenge_random_bot env st n).1 = false) := by
  intro n
  induction n with
  | zero =>
      rw [challenge_random_bot]
      cases hp : crbPick st (env 0) with
      | none => simp
      | some bot =>
          by_cases hr : (env 0).ratedOk = true
          · exact ⟨by simp [hr], fun hall => absurd (hall 0).1 (by simp [hr])⟩
          · by_cases hc : (env 0).casualOk = true
            · exact ⟨by simp [hr, hc], fun hall => absurd (hall 0).2 (by simp [hc])⟩
            · simp [hr, hc]
  | succ n ih =>
      rw [challenge_random_bot]
      cases hp : crbPick st (env (n + 1)) with
      | none => simp
      | some bot =>
          by_cases hr : (env (n + 1)).ratedOk = true
          · exact ⟨by simp [hr], fun hall => absurd (hall (n + 1)).1 (by simp [hr])⟩
          · by_cases hc : (env (n + 1)).casualOk = true
            · exact ⟨by simp [hr, hc], fun hall => absurd (hall (n + 1)).2 (by simp [hc])⟩
            · constructor
              · simp only [hr, hc, if_false]
                simpa using Nat.succ_le_succ ih.1
              · intro hall
                simp [hr, hc, ih.2 hall]

lemma crbPick_mem (st : CrbState) (c : CrbCall) (bot : String)
    (h : crbPick st c = some bot) :
    bot ∈ get_online_bots st.username c.serviceBots 80 := by
  unfold crbPick at h
  split_ifs at h
  dsimp only at h
  split_ifs at h with hemp
  revert h
  split
  · intro h
    exact Option.noConfusion h
  · intro h
    rename_i a rest heq
    have hmem : bot ∈ a :: rest := by
      rw [← Option.some_inj.1 h]
      exact List.get_mem _ _ _
    rw [← heq] at hmem
    exact (List.mem_filter.1 hmem).1

lemma challenge_random_bot_targets_not_self (env : Nat → CrbCall)
    (st : CrbState) :
    ∀ (fuel : Nat), ∀ t ∈ (challenge_random_bot env st fuel).2,
      pyLower t ≠ pyLower st.username := by
  intro fuel
  induction fuel with
  | zero =>
      intro t ht
      rw [challenge_random_bot] at ht
      revert ht
      cases hp : crbPick st (env 0) with
      | none => intro ht; cases ht
      | some bot =>
          intro ht
          dsimp only at ht
          have hbot : pyLower bot ≠ pyLower st.username :=
            get_online_bots_not_self st.username (env 0).serviceBots 80 bot
              (crbPick_mem st (env 0) bot hp)
          by_cases hr : (env 0).ratedOk = true
          · rw [if_pos hr] at ht
            rw [List.mem_singleton.1 ht]
            exact hbot
          · rw [if_neg hr] at ht
            by_cases hc : (env 0).casualOk = true
            · rw [if_pos hc] at ht
              rw [List.mem_singleton.1 ht]
              exact hbot
            · rw [if_neg hc] at ht
              rw [List.mem_singleton.1 ht]
              exact hbot
  | succ n ih =>
      intro t ht
      rw [challenge_random_bot] at ht
      revert ht
      cases hp : crbPick st (env (n + 1)) with
      | none => intro ht; cases ht
      | some bot =>
          intro ht
          dsimp only at ht
          have hbot : pyLower bot ≠ pyLower st.username :=
            get_online_bots_not_self st.username (env (n + 1)).serviceBots 80 bot
              (crbPick_mem st (env (n + 1)) bot hp)
          by_cases hr : (env (n + 1)).ratedOk = true
          · rw [if_pos hr] at ht
            rw [List.mem_singleton.1 ht]
            exact hbot
          · rw [if_neg hr] at ht
            by_cases hc : (env (n + 1)).casualOk = true
            · rw [if_pos hc] at ht
              rw [List.mem_singleton.1 ht]
              exact hbot
            · rw [if_neg hc] at ht
              rcases List.mem_cons.1 ht with h | h
              · rw [h]
                exact hbot
              · exact ih t h

/-- C10 (counterexample): with `limit = 0` the length bound "at most
`limit` usernames" fails — the break check in `get_online_bots` runs
only after an append, so one username comes back. -/
theorem online_bots_limit_counterexample :
    ¬ (get_online_bots "me" ["Other"] 0).length ≤ 0 := by
  decide

/-- C10 (amended): `get_online_bots` returns at most `limit` usernames
whenever `limit ≥ 1` (with `limit = 0` the first eligible bot is still
returned, since the break check runs after the append), it never
includes the bot's own username compared case-insensitively, and
consequently every bot targeted by `challenge_random_bot` differs
case-insensitively from the bot's own username. -/
theorem online_bots_limit_and_no_self (uname : String) (bots : List String)
    (limit : Nat) (hlim : 1 ≤ limit) (env : Nat → CrbCall) (st : CrbState)
    (fuel : Nat) :
    (get_online_bots uname bots limit).length ≤ limit ∧
    (∀ b ∈ get_online_bots uname bots limit, pyLower b ≠ pyLower uname) ∧
    (∀ t ∈ (challenge_random_bot env st fuel).2,
      pyLower t ≠ pyLower st.username) :=
  ⟨online_bots_go_length uname limit bots [] (by simpa using hlim),
   get_online_bots_not_self uname bots limit,
   challenge_random_bot_targets_not_self env st fuel⟩

/-- Environment for the C8 and C10 witnesses: one other bot online,
both challenge attempts always fail. -/
def crbEnvAllFail : Nat → CrbCall := fun _ => ⟨["OtherBot"], 0, false, false⟩

/-- Witness for C8: with the default retry budget 15 and an
environment where every attempt fails, at most 16 bots are attempted
and the result is `False`. -/
theorem challenge_random_bot_bounded_witness :
    (challenge_random_bot crbEnvAllFail ⟨none, false, true, [], "me"⟩ 15).2.length ≤ 16 ∧
    (challenge_random_bot crbEnvAllFail ⟨none, false, true, [], "me"⟩ 15).1 = false :=
  ⟨(challenge_random_bot_bounded crbEnvAllFail ⟨none, false, true, [], "me"⟩ 15).1,
   (challenge_random_bot_bounded crbEnvAllFail ⟨none, false, true, [], "me"⟩ 15).2
     (fun _ => ⟨rfl, rfl⟩)⟩

/-- Witness for C10 at `limit = 2`. -/
theorem online_bots_limit_and_no_self_witness :
    (get_online_bots "me" ["Other", "Me", "Third"] 2).length ≤ 2 ∧
    (∀ b ∈ get_online_bots "me" ["Other", "Me", "Third"] 2,
      pyLower b ≠ pyLower "me") ∧
    (∀ t ∈ (challenge_random_bot crbEnvAllFail
        ⟨none, false, true, [], "me"⟩ 3).2, pyLower t ≠ pyLower "me") :=
  online_bots_limit_and_no_self "me" ["Other", "Me", "Third"] 2 (by decide)
    crbEnvAllFail ⟨none, false, true, [], "me"⟩ 3

end WildOrderBot
